import Mathlib

/-!
Verification of the Magnetgetriebe Streamlit application (src/app.py).

The app has three pieces of logic:
* `berechne_qualitaet` (app.py lines 88-101): rounds the Modulatorzahl and
  Polzahl-Rotor cell values to integers, computes the least common multiple
  via `kgv = (mod * rotor) // math.gcd(mod, rotor)` and returns the float
  `(mod * rotor) / kgv`.
* the extraction loop (app.py lines 166-194): reads row 0 of every column as
  the stator pole count, then walks down the column in 5-row blocks
  (`while start_row + 4 < len(df)`) collecting one record per block.
* the range filters of the six tabs (e.g. `gear_ratio_filtered`,
  `combo_filtered`): boolean masks `lo <= field <= hi` over the record set
  with `lo = target - tolerance`, `hi = target + tolerance`.

Numeric cell values are embedded as rationals `ℚ`; a spreadsheet cell is an
`Option ℚ`, where `none` stands for a non-numeric cell (blank or text, which
pandas surfaces as NaN or a string: every numeric comparison with it is
false).  Python operations that raise (`ZeroDivisionError` in the
classifier) are embedded as `Option` results.
-/

/-- A spreadsheet cell: `some q` for a numeric value, `none` for a
non-numeric cell (blank or text). -/
abbrev Cell := Option ℚ

/-- One extracted record, with the field names of the dict built in the
extraction loop of app.py (Spalte, Polzahl Stator, Polzahl Rotor,
Modulatorzahl, Übersetzung, Drehmoment Modulator, Drehmoment Rotor). -/
structure GearVariant where
  spalte : ℕ
  polzahlStator : Cell
  polzahlRotor : Cell
  modulatorzahl : Cell
  uebersetzung : Cell
  drehmomentModulator : Cell
  drehmomentRotor : Cell
deriving DecidableEq, Repr

/-- Python 3 `round` to an integer: round half to even (banker's rounding),
on the exact rational value. -/
def pyRound (q : ℚ) : ℤ :=
  let f := ⌊q⌋
  if q - f < 1/2 then f
  else if 1/2 < q - f then f + 1
  else if 2 ∣ f then f else f + 1

/-- `berechne_qualitaet` (app.py lines 88-101).  Arguments in the order the
function reads them: `row["Modulatorzahl"]` then `row["Polzahl Rotor"]`.
`int(round(.))` is `pyRound`; `math.gcd` is `Int.gcd`; `//` is `Int.fdiv`;
the final `/` is exact real (float) division.  Python raises
`ZeroDivisionError` when a divisor is zero, embedded as `none`. -/
def berechne_qualitaet (modVal rotorVal : ℚ) : Option ℚ :=
  let m : ℤ := pyRound modVal
  let rotor : ℤ := pyRound rotorVal
  if (Int.gcd m rotor : ℤ) = 0 then none
  else
    let kgv : ℤ := Int.fdiv (m * rotor) (Int.gcd m rotor)
    if kgv = 0 then none
    else some ((m : ℚ) * (rotor : ℚ) / (kgv : ℚ))

/-! ### Helper lemmas for `pyRound` and `berechne_qualitaet` -/

/-- Rounding an integer value gives that integer back. -/
theorem pyRound_intCast (n : ℤ) : pyRound (n : ℚ) = n := by
  simp [pyRound]

/-- Rounding a natural-number value gives that number back. -/
theorem pyRound_natCast (n : ℕ) : pyRound (n : ℚ) = n := by
  simpa using pyRound_intCast (n : ℤ)

/-- Evaluation of `pyRound` below the midpoint. -/
theorem pyRound_eq_of_lt_half (q : ℚ) (n : ℤ) (h1 : (n : ℚ) ≤ q)
    (h2 : q < n + 1/2) : pyRound q = n := by
  have hf : ⌊q⌋ = n := by
    rw [Int.floor_eq_iff]
    constructor
    · exact h1
    · calc q < (n : ℚ) + 1/2 := h2
        _ < n + 1 := by norm_num
  simp only [pyRound, hf]
  rw [if_pos (by linarith)]

/-- Evaluation of `pyRound` above the midpoint. -/
theorem pyRound_eq_of_gt_half (q : ℚ) (n : ℤ) (h1 : (n : ℚ) + 1/2 < q)
    (h2 : q < n + 1) : pyRound q = n + 1 := by
  have hn : (n : ℚ) ≤ q := by
    calc (n : ℚ) ≤ n + 1/2 := by norm_num
      _ ≤ q := le_of_lt h1
  have hf : ⌊q⌋ = n := by
    rw [Int.floor_eq_iff]
    exact ⟨hn, h2⟩
  simp only [pyRound, hf]
  rw [if_neg (by linarith), if_pos (by linarith)]

/-- On positive integer inputs the classifier succeeds and returns exactly
the greatest common divisor of the two (as a rational). -/
theorem berechne_qualitaet_nat (a b : ℕ) (ha : 0 < a) (hb : 0 < b) :
    berechne_qualitaet (a : ℚ) (b : ℚ) = some (Nat.gcd a b : ℚ) := by
  have hma : pyRound (a : ℚ) = (a : ℤ) := pyRound_natCast a
  have hmb : pyRound (b : ℚ) = (b : ℤ) := pyRound_natCast b
  have hgcd : Int.gcd (a : ℤ) (b : ℤ) = Nat.gcd a b := by
    simp [Int.gcd]
  have hg0 : Nat.gcd a b ≠ 0 := by
    intro h
    rw [Nat.gcd_eq_zero_iff] at h
    omega
  have hfdiv : Int.fdiv ((a : ℤ) * (b : ℤ)) (Nat.gcd a b : ℤ) =
      (Nat.lcm a b : ℤ) := by
    have h1 : (a : ℤ) * (b : ℤ) = ((a * b : ℕ) : ℤ) := by push_cast; ring
    rw [h1, ← Int.ofNat_fdiv]
    rfl
  have hlcm0 : Nat.lcm a b ≠ 0 := Nat.lcm_ne_zero ha.ne' hb.ne'
  have hval : ((a : ℤ) : ℚ) * ((b : ℤ) : ℚ) / ((Nat.lcm a b : ℤ) : ℚ) =
      (Nat.gcd a b : ℚ) := by
    rw [div_eq_iff (by exact_mod_cast hlcm0)]
    have := Nat.gcd_mul_lcm a b
    push_cast
    exact_mod_cast congrArg (fun n : ℕ => (n : ℚ)) this.symm
  simp only [berechne_qualitaet, hma, hmb, hgcd]
  rw [if_neg (by exact_mod_cast hg0), hfdiv,
    if_neg (by exact_mod_cast hlcm0), hval]

/-! ### The record extractor (app.py lines 166-194) -/

/-- `df.iloc[r, c]` for the fixed spreadsheet: cell at row `r`, column `c`.
Out-of-range access is irrelevant for the rectangular grids the app reads;
it is mapped to `none` like a non-numeric cell. -/
def cellAt (grid : List (List Cell)) (r c : ℕ) : Cell :=
  (grid.getD r []).getD c none

/-- The number of columns of the grid (`df.columns`): the width of its
first row (a rectangular grid with no rows has no columns). -/
def numCols (grid : List (List Cell)) : ℕ := (grid.headD []).length

/-- The `while start_row + 4 < len(df)` loop body of the extraction pass:
from `startRow` on, collect one record per complete 5-row block of column
`col`, advancing by 5 rows each iteration. -/
def extractBlocks (grid : List (List Cell)) (col : ℕ) (stator : Cell)
    (startRow : ℕ) : List GearVariant :=
  if startRow + 4 < grid.length then
    { spalte := col,
      polzahlStator := stator,
      polzahlRotor := cellAt grid startRow col,
      modulatorzahl := cellAt grid (startRow + 1) col,
      uebersetzung := cellAt grid (startRow + 2) col,
      drehmomentModulator := cellAt grid (startRow + 3) col,
      drehmomentRotor := cellAt grid (startRow + 4) col } ::
      extractBlocks grid col stator (startRow + 5)
  else []
termination_by grid.length - startRow
decreasing_by omega

/-- The whole extraction pass (app.py lines 166-194): for every column,
read the stator pole count from row 0 and then the 5-row blocks starting
at row 1; results are appended column by column. -/
def extract (grid : List (List Cell)) : List GearVariant :=
  (List.range (numCols grid)).flatMap fun col =>
    extractBlocks grid col (cellAt grid 0 col) 1

/-- The record produced for the block of `col` starting at row `row`
(abbreviation used to state the extractor's characterisation). -/
def blockRecord (grid : List (List Cell)) (col : ℕ) (stator : Cell)
    (row : ℕ) : GearVariant :=
  { spalte := col,
    polzahlStator := stator,
    polzahlRotor := cellAt grid row col,
    modulatorzahl := cellAt grid (row + 1) col,
    uebersetzung := cellAt grid (row + 2) col,
    drehmomentModulator := cellAt grid (row + 3) col,
    drehmomentRotor := cellAt grid (row + 4) col }

/-- Spec-side record of §4.1: block `k` of column `col` starts at row
`1 + 5 * k`; within the block, offset 0 is the rotor pole count, 1 the
modulator count, 2 the gear ratio, 3 the modulator torque, 4 the rotor
torque, and row 0 of the column holds the stator pole count. -/
def specBlock (grid : List (List Cell)) (col k : ℕ) : GearVariant :=
  { spalte := col,
    polzahlStator := cellAt grid 0 col,
    polzahlRotor := cellAt grid (1 + 5 * k) col,
    modulatorzahl := cellAt grid (1 + 5 * k + 1) col,
    uebersetzung := cellAt grid (1 + 5 * k + 2) col,
    drehmomentModulator := cellAt grid (1 + 5 * k + 3) col,
    drehmomentRotor := cellAt grid (1 + 5 * k + 4) col }

/-- Spec-side extraction of §4.1: every column contributes one record per
complete 5-row block below row 0; the trailing partial block is discarded,
so column `col` contributes `specBlock grid col k` for
`k < (grid.length - 1) / 5`. -/
def extractSpec (grid : List (List Cell)) : List GearVariant :=
  (List.range (numCols grid)).flatMap fun col =>
    (List.range ((grid.length - 1) / 5)).map (specBlock grid col)

/-- Characterisation of the block loop: starting at `s` it produces exactly
`(grid.length - s) / 5` records, the `k`-th one for the block at row
`s + 5 * k`. -/
theorem extractBlocks_eq (grid : List (List Cell)) (col : ℕ) (stator : Cell)
    (s : ℕ) :
    extractBlocks grid col stator s =
      (List.range ((grid.length - s) / 5)).map
        (fun k => blockRecord grid col stator (s + 5 * k)) := by
  have H : ∀ n s, grid.length - s ≤ n →
      extractBlocks grid col stator s =
        (List.range ((grid.length - s) / 5)).map
          (fun k => blockRecord grid col stator (s + 5 * k)) := by
    intro n
    induction n with
    | zero =>
      intro s hs
      rw [extractBlocks]
      rw [if_neg (by omega)]
      have h5 : (grid.length - s) / 5 = 0 := by omega
      rw [h5]
      simp
    | succ n ih =>
      intro s hs
      rw [extractBlocks]
      by_cases h : s + 4 < grid.length
      · rw [if_pos h, ih (s + 5) (by omega)]
        have hq : (grid.length - s) / 5 = (grid.length - (s + 5)) / 5 + 1 := by
          omega
        have htail :
            List.map (fun k => blockRecord grid col stator (s + 5 + 5 * k))
              (List.range ((grid.length - (s + 5)) / 5)) =
            List.map ((fun k => blockRecord grid col stator (s + 5 * k)) ∘
              Nat.succ) (List.range ((grid.length - (s + 5)) / 5)) := by
          apply List.map_congr_left
          intro k _
          show blockRecord grid col stator (s + 5 + 5 * k) =
            blockRecord grid col stator (s + 5 * (k + 1))
          have harith : s + 5 + 5 * k = s + 5 * (k + 1) := by ring
          rw [harith]
        rw [hq, List.range_succ_eq_map, List.map_cons, List.map_map, ← htail]
        rfl
      · rw [if_neg h]
        have h5 : (grid.length - s) / 5 = 0 := by omega
        rw [h5]
        simp
  exact H grid.length s (Nat.sub_le _ _)

/-- The extractor implements the layout convention of §4.1. -/
theorem extract_eq_extractSpec (grid : List (List Cell)) :
    extract grid = extractSpec grid := by
  unfold extract extractSpec
  congr 1
  funext col
  rw [extractBlocks_eq]
  apply List.map_congr_left
  intro k _
  rfl

/-- Record count: one record per column and complete block, whatever the
cell contents are. -/
theorem extract_length (grid : List (List Cell)) :
    (extract grid).length = numCols grid * ((grid.length - 1) / 5) := by
  rw [extract_eq_extractSpec]
  unfold extractSpec
  rw [List.length_flatMap]
  simp only [Function.comp_def, List.length_map, List.length_range,
    List.map_const', List.sum_replicate, smul_eq_mul]

/-! ### The range filters (the six tabs of app.py) -/

/-- Pandas comparison `cell >= lo` on a cell: false for a non-numeric
cell (NaN compares false). -/
def cellGe (c : Cell) (lo : ℚ) : Bool :=
  match c with
  | some v => decide (lo ≤ v)
  | none => false

/-- Pandas comparison `cell <= hi` on a cell: false for a non-numeric
cell (NaN compares false). -/
def cellLe (c : Cell) (hi : ℚ) : Bool :=
  match c with
  | some v => decide (v ≤ hi)
  | none => false

/-- The single-field range filter of the first three tabs, e.g.
`gear_ratio_filtered` (app.py lines 206-222): keep the records whose field
lies between `target - tolerance` and `target + tolerance` inclusive. -/
def rangeFilter (records : List GearVariant) (field : GearVariant → Cell)
    (target tolerance : ℚ) : List GearVariant :=
  let lo := target - tolerance
  let hi := target + tolerance
  records.filter fun r => cellGe (field r) lo && cellLe (field r) hi

/-- The two-field range filter of the three combo tabs, e.g.
`combo_filtered` (app.py lines 368-373): both fields must lie in their
respective inclusive ranges. -/
def rangeFilter2 (records : List GearVariant)
    (field1 : GearVariant → Cell) (target1 tolerance1 : ℚ)
    (field2 : GearVariant → Cell) (target2 tolerance2 : ℚ) :
    List GearVariant :=
  records.filter fun r =>
    cellGe (field1 r) (target1 - tolerance1) &&
    cellLe (field1 r) (target1 + tolerance1) &&
    cellGe (field2 r) (target2 - tolerance2) &&
    cellLe (field2 r) (target2 + tolerance2)

/-! ### Concrete grids and records used in the claims -/

/-- The 1-column, 6-row grid of §8: stator 10, then one block
(rotor 20, modulator 8, ratio 1.5, modulator torque 3.0, rotor torque
2.0). -/
def exampleGrid6 : List (List Cell) :=
  [[some 10], [some 20], [some 8], [some (3/2)], [some 3], [some 2]]

/-- `exampleGrid6` with a 7th row appended (an incomplete trailing
block). -/
def exampleGrid7 : List (List Cell) := exampleGrid6 ++ [[some 99]]

/-- The single record extracted from `exampleGrid6`. -/
def exampleRecord : GearVariant :=
  { spalte := 0, polzahlStator := some 10, polzahlRotor := some 20,
    modulatorzahl := some 8, uebersetzung := some (3/2),
    drehmomentModulator := some 3, drehmomentRotor := some 2 }

/-- 20.4 rounds down to 20. -/
theorem pyRound_204 : pyRound (102/5 : ℚ) = 20 :=
  pyRound_eq_of_lt_half _ 20 (by norm_num) (by norm_num)

/-- 8.3 rounds down to 8. -/
theorem pyRound_83 : pyRound (83/10 : ℚ) = 8 :=
  pyRound_eq_of_lt_half _ 8 (by norm_num) (by norm_num)

/-- If one of the two cell values is 0, the classifier raises
(`ZeroDivisionError`): either `math.gcd` returns 0 (both zero) or
`kgv = 0 // gcd = 0` and the final division is by zero. -/
theorem berechne_qualitaet_zero (x y : ℚ) (h : x = 0 ∨ y = 0) :
    berechne_qualitaet x y = none := by
  have h0 : pyRound (0 : ℚ) = 0 := by simpa using pyRound_intCast 0
  rcases h with rfl | rfl
  · simp only [berechne_qualitaet, h0]
    by_cases hr : (Int.gcd 0 (pyRound y) : ℤ) = 0
    · rw [if_pos hr]
    · rw [if_neg hr]
      simp
  · simp only [berechne_qualitaet, h0]
    by_cases hm : (Int.gcd (pyRound x) 0 : ℤ) = 0
    · rw [if_pos hm]
    · rw [if_neg hm]
      simp

/-! ### Claims about the quality classifier -/

/-- Claim C1: for every pair of positive integers, the classifier (after
rounding its inputs, which leaves integers unchanged) returns
`(rotorPoles * modulatorCount) / lcm(rotorPoles, modulatorCount)`, which
equals `gcd(rotorPoles, modulatorCount)`. -/
theorem claim_C1 (a b : ℕ) (ha : 0 < a) (hb : 0 < b) :
    berechne_qualitaet (a : ℚ) (b : ℚ) =
      some ((a : ℚ) * (b : ℚ) / (Nat.lcm a b : ℚ)) ∧
    berechne_qualitaet (a : ℚ) (b : ℚ) = some (Nat.gcd a b : ℚ) := by
  have h := berechne_qualitaet_nat a b ha hb
  have hl0 : (Nat.lcm a b : ℚ) ≠ 0 := by
    exact_mod_cast Nat.lcm_ne_zero ha.ne' hb.ne'
  refine ⟨?_, h⟩
  rw [h]
  congr 1
  rw [eq_div_iff hl0]
  exact_mod_cast Nat.gcd_mul_lcm a b

/-- Witness for C1 at the spec's example: `classify(4,6) == 2`. -/
theorem claim_C1_witness :
    0 < 4 ∧ 0 < 6 ∧ berechne_qualitaet 4 6 = some 2 := by
  refine ⟨by decide, by decide, ?_⟩
  have h := (claim_C1 4 6 (by decide) (by decide)).2
  rw [show Nat.gcd 4 6 = 2 from by decide] at h
  simpa using h

/-- Claim C5: a zero rotor pole count or modulator count makes the
classifier fail (embedded as `none`, Python's uncaught
`ZeroDivisionError`) instead of returning a sentinel number. -/
theorem claim_C5 (x y : ℚ) (h : x = 0 ∨ y = 0) :
    berechne_qualitaet x y = none :=
  berechne_qualitaet_zero x y h

/-- Witness for C5 at the spec's example `classify(0, 5)`: rotor pole
count 0, modulator count 5. -/
theorem claim_C5_witness :
    ((5 : ℚ) = 0 ∨ (0 : ℚ) = 0) ∧ berechne_qualitaet 5 0 = none :=
  ⟨Or.inr rfl, claim_C5 5 0 (Or.inr rfl)⟩

/-- Claim C8: on positive integers the quality value is an integer
(represented as a rational) in the range `[1, min rotor modulator]`;
strictly fractional values never occur. -/
theorem claim_C8 (a b : ℕ) (ha : 0 < a) (hb : 0 < b) :
    ∃ g : ℕ, berechne_qualitaet (a : ℚ) (b : ℚ) = some (g : ℚ) ∧
      1 ≤ g ∧ g ≤ min a b := by
  have h1 : 1 ≤ Nat.gcd a b := by
    have hne : Nat.gcd a b ≠ 0 := by
      intro hz
      rw [Nat.gcd_eq_zero_iff] at hz
      omega
    omega
  have h2 : Nat.gcd a b ≤ a := Nat.gcd_le_left b ha
  have h3 : Nat.gcd a b ≤ b := Nat.gcd_le_right b hb
  exact ⟨Nat.gcd a b, berechne_qualitaet_nat a b ha hb, h1, le_min h2 h3⟩

/-- Witness for C8 at (4, 6). -/
theorem claim_C8_witness :
    0 < 4 ∧ 0 < 6 ∧
      ∃ g : ℕ, berechne_qualitaet ((4 : ℕ) : ℚ) ((6 : ℕ) : ℚ) =
        some (g : ℚ) ∧ 1 ≤ g ∧ g ≤ min 4 6 :=
  ⟨by decide, by decide, claim_C8 4 6 (by decide) (by decide)⟩

/-- Claim C9: the quality score is symmetric in its two arguments, and on
a pair of equal positive integers it returns that integer. -/
theorem claim_C9 (a b : ℕ) (ha : 0 < a) (hb : 0 < b) :
    berechne_qualitaet (a : ℚ) (b : ℚ) = berechne_qualitaet (b : ℚ) (a : ℚ) ∧
    berechne_qualitaet (a : ℚ) (a : ℚ) = some (a : ℚ) := by
  constructor
  · rw [berechne_qualitaet_nat a b ha hb, berechne_qualitaet_nat b a hb ha,
      Nat.gcd_comm]
  · rw [berechne_qualitaet_nat a a ha ha, Nat.gcd_self]

/-- Witness for C9 at the spec's test `classify(6,6) == 6`. -/
theorem claim_C9_witness :
    0 < 6 ∧ berechne_qualitaet 6 6 = some 6 := by
  refine ⟨by decide, ?_⟩
  have h := (claim_C9 6 6 (by decide) (by decide)).2
  simpa using h

/-- Claim C10: the classifier only depends on its inputs through their
rounded values: scoring real inputs equals scoring their rounded
integers. -/
theorem claim_C10 (x y : ℚ) (hx : 0 < pyRound x) (hy : 0 < pyRound y) :
    berechne_qualitaet x y =
      berechne_qualitaet ((pyRound x : ℤ) : ℚ) ((pyRound y : ℤ) : ℚ) := by
  simp only [berechne_qualitaet, pyRound_intCast]

/-- Witness for C10 at the float inputs 20.4 and 8.3 (which round to 20
and 8). -/
theorem claim_C10_witness :
    0 < pyRound (102/5 : ℚ) ∧ 0 < pyRound (83/10 : ℚ) ∧
      berechne_qualitaet (102/5) (83/10) =
        berechne_qualitaet ((pyRound (102/5 : ℚ) : ℤ) : ℚ)
          ((pyRound (83/10 : ℚ) : ℤ) : ℚ) := by
  have hx : 0 < pyRound (102/5 : ℚ) := by rw [pyRound_204]; decide
  have hy : 0 < pyRound (83/10 : ℚ) := by rw [pyRound_83]; decide
  exact ⟨hx, hy, claim_C10 (102/5) (83/10) hx hy⟩

/-! ### Claims about the record extractor -/

/-- Claim C2: extraction reads row 0 of each column as the stator pole
count and partitions the column from row 1 into consecutive 5-row blocks
(offsets 0 rotor poles, 1 modulator count, 2 gear ratio, 3 modulator
torque, 4 rotor torque), one record per complete block, the trailing
partial block discarded; the 6-row example grid yields exactly one
record and a 7th row is discarded. -/
theorem claim_C2 :
    (∀ grid : List (List Cell), extract grid = extractSpec grid) ∧
    extract exampleGrid6 = [exampleRecord] ∧
    extract exampleGrid7 = [exampleRecord] := by
  refine ⟨extract_eq_extractSpec, ?_, ?_⟩
  · rw [extract_eq_extractSpec]; rfl
  · rw [extract_eq_extractSpec]; rfl

/-- `exampleGrid6` with its modulator-count cell blanked out: its only
block is malformed. -/
def malformedGrid : List (List Cell) :=
  [[some 10], [some 20], [none], [some (3/2)], [some 3], [some 2]]

/-- The record the extractor produces for the malformed block of
`malformedGrid`: the non-numeric cell is stored verbatim. -/
def malformedRecord : GearVariant :=
  { spalte := 0, polzahlStator := some 10, polzahlRotor := some 20,
    modulatorzahl := none, uebersetzung := some (3/2),
    drehmomentModulator := some 3, drehmomentRotor := some 2 }

/-- Counterexample to claim C3: on a grid whose only block has a
non-numeric modulator cell, the claim predicts no record at all, but the
extractor still produces one record, carrying the non-numeric cell. -/
theorem claim_C3_counterexample :
    extract malformedGrid = [malformedRecord] ∧
    extract malformedGrid ≠ [] := by
  have h : extract malformedGrid = [malformedRecord] := by
    rw [extract_eq_extractSpec]; rfl
  exact ⟨h, by rw [h]; simp⟩

/-- A 2-column grid whose column-0 block has a non-numeric cell while
column 1 is intact. -/
def twoColGrid : List (List Cell) :=
  [[some 10, some 12], [some 20, some 22], [none, some 9],
   [some (3/2), some 2], [some 3, some 4], [some 2, some 5]]

/-- The intact record of column 1 of `twoColGrid`. -/
def twoColRecord2 : GearVariant :=
  { spalte := 1, polzahlStator := some 12, polzahlRotor := some 22,
    modulatorzahl := some 9, uebersetzung := some 2,
    drehmomentModulator := some 4, drehmomentRotor := some 5 }

/-- Amended claim C3: the extractor has no notion of a malformed block.
It produces exactly one record per column and complete 5-row block
regardless of cell contents, storing any non-numeric cell verbatim in the
record, and it continues with the following blocks and columns (it never
aborts the pass). -/
theorem claim_C3_amended :
    (∀ grid : List (List Cell),
      (extract grid).length = numCols grid * ((grid.length - 1) / 5)) ∧
    extract twoColGrid = [malformedRecord, twoColRecord2] := by
  refine ⟨extract_length, ?_⟩
  rw [extract_eq_extractSpec]; rfl

/-- A 1-column, 6-row grid whose rotor-pole cell is the float 20.4 and
whose modulator-count cell is the float 8.3. -/
def floatGrid : List (List Cell) :=
  [[some 10], [some (102/5)], [some (83/10)], [some (3/2)], [some 3],
   [some 2]]

/-- The record the extractor produces from `floatGrid`: all cell values
stored unrounded. -/
def floatRecord : GearVariant :=
  { spalte := 0, polzahlStator := some 10, polzahlRotor := some (102/5),
    modulatorzahl := some (83/10), uebersetzung := some (3/2),
    drehmomentModulator := some 3, drehmomentRotor := some 2 }

/-- Counterexample to claim C4: with a rotor-pole cell 20.4 the claim
predicts the stored rotorPoles value `some 20`, but the extractor stores
the raw 20.4. -/
theorem claim_C4_counterexample :
    ¬ ((extract floatGrid).map (fun r => r.polzahlRotor) = [some 20]) ∧
    (extract floatGrid).map (fun r => r.polzahlRotor) = [some (102/5)] := by
  have h : extract floatGrid = [floatRecord] := by
    rw [extract_eq_extractSpec]; rfl
  constructor
  · rw [h]
    intro hc
    simp only [List.map_cons, List.map_nil, List.cons.injEq, and_true,
      floatRecord] at hc
    rw [Option.some.injEq] at hc
    norm_num at hc
  · rw [h]
    rfl

/-- Amended claim C4: rotorPoles and modulatorCount are stored in the
record as raw, unrounded cell values (like gearRatio, modulatorTorque and
rotorTorque); rounding to the nearest integer happens only inside the
quality classifier when the values are scored. -/
theorem claim_C4_amended :
    extract floatGrid = [floatRecord] ∧
    (∀ x y : ℚ, berechne_qualitaet x y =
      berechne_qualitaet ((pyRound x : ℤ) : ℚ) ((pyRound y : ℤ) : ℚ)) := by
  constructor
  · rw [extract_eq_extractSpec]; rfl
  · intro x y
    simp only [berechne_qualitaet, pyRound_intCast]

/-! ### Claims about the range filter -/

/-- Membership characterisation of the single-field filter. -/
theorem mem_rangeFilter_iff (records : List GearVariant)
    (field : GearVariant → Cell) (target tol : ℚ) (r : GearVariant) :
    r ∈ rangeFilter records field target tol ↔
      r ∈ records ∧
        ∃ v, field r = some v ∧ target - tol ≤ v ∧ v ≤ target + tol := by
  unfold rangeFilter
  rw [List.mem_filter]
  cases hf : field r with
  | none => simp [cellGe, hf]
  | some v => simp [cellGe, cellLe, hf]

/-- Membership characterisation of the two-field filter. -/
theorem mem_rangeFilter2_iff (records : List GearVariant)
    (f1 f2 : GearVariant → Cell) (t1 tol1 t2 tol2 : ℚ) (r : GearVariant) :
    r ∈ rangeFilter2 records f1 t1 tol1 f2 t2 tol2 ↔
      r ∈ records ∧
        (∃ v, f1 r = some v ∧ t1 - tol1 ≤ v ∧ v ≤ t1 + tol1) ∧
        (∃ w, f2 r = some w ∧ t2 - tol2 ≤ w ∧ w ≤ t2 + tol2) := by
  unfold rangeFilter2
  rw [List.mem_filter]
  cases hf1 : f1 r with
  | none => simp [cellGe, hf1]
  | some v =>
    cases hf2 : f2 r with
    | none => simp [cellGe, cellLe, hf1, hf2]
    | some w => simp [cellGe, cellLe, hf1, hf2, and_assoc]

/-- Claim C6: with nonnegative tolerances, both filter arities return
exactly the subsequence (order-preserving) of the records whose field
values lie within the inclusive target-tolerance ranges, triples combined
with logical AND. -/
theorem claim_C6 (records : List GearVariant)
    (f1 f2 : GearVariant → Cell) (t1 tol1 t2 tol2 : ℚ)
    (htol1 : 0 ≤ tol1) (htol2 : 0 ≤ tol2) :
    (∀ r, r ∈ rangeFilter records f1 t1 tol1 ↔
      r ∈ records ∧
        ∃ v, f1 r = some v ∧ t1 - tol1 ≤ v ∧ v ≤ t1 + tol1) ∧
    (rangeFilter records f1 t1 tol1).Sublist records ∧
    (∀ r, r ∈ rangeFilter2 records f1 t1 tol1 f2 t2 tol2 ↔
      r ∈ records ∧
        (∃ v, f1 r = some v ∧ t1 - tol1 ≤ v ∧ v ≤ t1 + tol1) ∧
        (∃ w, f2 r = some w ∧ t2 - tol2 ≤ w ∧ w ≤ t2 + tol2)) ∧
    (rangeFilter2 records f1 t1 tol1 f2 t2 tol2).Sublist records :=
  ⟨mem_rangeFilter_iff records f1 t1 tol1,
   List.filter_sublist records,
   mem_rangeFilter2_iff records f1 f2 t1 tol1 t2 tol2,
   List.filter_sublist records⟩

/-- Witness for C6: the gear-ratio filter at target 2.0, tolerance 0.5 on
a concrete two-record set (gear ratios 1.5 and 2). -/
theorem claim_C6_witness :
    0 ≤ (1/2 : ℚ) ∧
      (exampleRecord ∈ rangeFilter [exampleRecord, twoColRecord2]
          GearVariant.uebersetzung 2 (1/2) ↔
        exampleRecord ∈ [exampleRecord, twoColRecord2] ∧
          ∃ v, exampleRecord.uebersetzung = some v ∧
            2 - 1/2 ≤ v ∧ v ≤ 2 + 1/2) :=
  ⟨by norm_num,
   (claim_C6 [exampleRecord, twoColRecord2] GearVariant.uebersetzung
     GearVariant.drehmomentRotor 2 (1/2) 2 (1/2) (by norm_num)
     (by norm_num)).1 exampleRecord⟩

/-- Counterexample to claim C7: the filter code has no `InvalidInput`
path.  Given a negative tolerance it silently returns the empty record
set, on the same record set on which a tolerance of 1 returns a
result. -/
theorem claim_C7_counterexample :
    rangeFilter [exampleRecord] GearVariant.uebersetzung 2 1 =
      [exampleRecord] ∧
    rangeFilter [exampleRecord] GearVariant.uebersetzung 2 (-1) = [] := by
  constructor
  · norm_num [rangeFilter, cellGe, cellLe, exampleRecord, List.filter_cons,
      List.filter_nil]
  · norm_num [rangeFilter, cellGe, cellLe, exampleRecord, List.filter_cons,
      List.filter_nil]

/-- Amended claim C7: the filter does not signal an error on a negative
tolerance.  Since then `target - tolerance > target + tolerance`, the
range is empty and both filter arities silently return the empty record
set (in the app the tolerance widgets have `min_value=0.0`, so a negative
tolerance cannot be entered). -/
theorem claim_C7_amended :
    (∀ (records : List GearVariant) (field : GearVariant → Cell)
      (target tolerance : ℚ), tolerance < 0 →
        rangeFilter records field target tolerance = []) ∧
    (∀ (records : List GearVariant) (f1 f2 : GearVariant → Cell)
      (t1 tol1 t2 tol2 : ℚ), tol1 < 0 →
        rangeFilter2 records f1 t1 tol1 f2 t2 tol2 = []) := by
  constructor
  · intro records field target tolerance h
    unfold rangeFilter
    rw [List.filter_eq_nil_iff]
    intro r _
    cases hf : field r with
    | none => simp [cellGe, hf]
    | some v =>
      simp only [cellGe, cellLe, hf, Bool.and_eq_true, decide_eq_true_eq,
        not_and]
      intro h1 h2
      linarith
  · intro records f1 f2 t1 tol1 t2 tol2 h
    unfold rangeFilter2
    rw [List.filter_eq_nil_iff]
    intro r _
    cases hf : f1 r with
    | none => simp [cellGe, hf]
    | some v =>
      simp only [cellGe, cellLe, hf, Bool.and_eq_true, decide_eq_true_eq]
      rintro ⟨⟨⟨h1, h2⟩, -⟩, -⟩
      linarith

/-- Witness for the amended claim C7 at tolerance -1. -/
theorem claim_C7_amended_witness :
    (-1 : ℚ) < 0 ∧
      rangeFilter [exampleRecord] GearVariant.uebersetzung 2 (-1) = [] :=
  ⟨by norm_num,
   claim_C7_amended.1 [exampleRecord] GearVariant.uebersetzung 2 (-1)
     (by norm_num)⟩
